import Mathlib

/-!
Verification of the daemon lifecycle subsystem of the `cocli` repository
(`server` package: `config.go` / `daemon.go`).

The Go code is shallowly embedded as pure Lean functions:

* `FileConfigStore` (file-backed persistence of `DaemonConfig`) acts on an
  explicit filesystem model `FS`; `json.MarshalIndent` / `json.Unmarshal`
  are embedded as a concrete character-level encoder `marshal` and decoder
  `unmarshal` for the fixed three-field record the store writes.
* `DaemonManager` methods (`Start`, `Stop`, `Status`, `IsRunning`,
  `GetPort`, `waitForHealthy`) are state-passing functions over an
  environment `Env` that carries the filesystem plus the behaviour of the
  injected collaborators (`ProcessManager.IsRunning`/`Kill`/`StartProcess`,
  `HealthChecker.Ping`, `CLIFinder.FindCLI`).  Every collaborator call is
  recorded in an event trace, so claims about which calls happen (and in
  which order) are statements about the trace.
-/

deriving instance DecidableEq for Except

/-! ## Data model: `DaemonConfig` (config.go) -/

/-- The persisted daemon record (`DaemonConfig` in config.go).
`StartedAt` is a `time.Time` in Go; timestamps are embedded as integers. -/
structure DaemonConfig where
  pid : Int
  port : Int
  startedAt : Int
deriving DecidableEq, Repr

/-! ## Character-level encoding (json.MarshalIndent / json.Unmarshal)

`FileConfigStore.Save` writes `json.MarshalIndent(config, "", "  ")`:
an object with the fields `pid`, `port`, `started_at`, two-space indented.
`marshal` produces exactly that shape (over `List Char`); `unmarshal` is
the decoder for records of that shape, failing on anything else (Go's
`json.Unmarshal` is more lenient on field order and whitespace, but every
claim only exercises decoding of what `Save` wrote, plus failure on
malformed content). -/

/-- Most-significant-first decimal digits of a natural number.
Fuel-based so that it reduces definitionally (fuel `n+1` always suffices). -/
def natDigitsAux : Nat → Nat → List Char
  | 0, _ => []
  | fuel + 1, n =>
    if n < 10 then [Nat.digitChar n]
    else natDigitsAux fuel (n / 10) ++ [Nat.digitChar (n % 10)]

def natDigits (n : Nat) : List Char := natDigitsAux (n + 1) n

/-- Decimal rendering of an integer. -/
def encInt (i : Int) : List Char :=
  if i < 0 then '-' :: natDigits i.natAbs else natDigits i.natAbs

/-- Numeric value of a decimal digit character. -/
def digitVal (c : Char) : Nat := c.toNat - 48

/-- Fold a digit string onto an accumulator (value of the numeral). -/
def digitsToNat (acc : Nat) : List Char → Nat
  | [] => acc
  | c :: cs => digitsToNat (acc * 10 + digitVal c) cs

/-- Consume the leading run of decimal digits; fails when there is none. -/
def parseNat (s : List Char) : Option (Nat × List Char) :=
  let ds := s.takeWhile Char.isDigit
  if ds.isEmpty then none
  else some (digitsToNat 0 ds, s.dropWhile Char.isDigit)

/-- Consume an optionally-signed decimal integer. -/
def parseInt (s : List Char) : Option (Int × List Char) :=
  match s with
  | [] => none
  | c :: s' =>
    if c = '-' then
      match parseNat s' with
      | none => none
      | some (n, r) => some (-(n : Int), r)
    else
      match parseNat (c :: s') with
      | none => none
      | some (n, r) => some ((n : Int), r)

/-- Consume an exact literal text; fails on any mismatch. -/
def expectLit : List Char → List Char → Option (List Char)
  | [], s => some s
  | _ :: _, [] => none
  | c :: cs, x :: xs => if x = c then expectLit cs xs else none

def lbrace : Char := Char.ofNat 123
def rbrace : Char := Char.ofNat 125

/-- Literal up to the `pid` value in the encoded record. -/
def jOpen : List Char :=
  [lbrace, '\n', ' ', ' ', '"', 'p', 'i', 'd', '"', ':', ' ']

/-- Literal between the `pid` and `port` values. -/
def jPort : List Char :=
  [',', '\n', ' ', ' ', '"', 'p', 'o', 'r', 't', '"', ':', ' ']

/-- Literal between the `port` and `started_at` values. -/
def jStarted : List Char :=
  [',', '\n', ' ', ' ', '"', 's', 't', 'a', 'r', 't', 'e', 'd', '_', 'a', 't', '"', ':', ' ']

/-- Closing literal of the encoded record. -/
def jClose : List Char := ['\n', rbrace]

/-- `json.MarshalIndent(config, "", "  ")` for the three-field record. -/
def marshal (c : DaemonConfig) : List Char :=
  jOpen ++ encInt c.pid ++ jPort ++ encInt c.port
    ++ jStarted ++ encInt c.startedAt ++ jClose

/-- `json.Unmarshal` into `DaemonConfig`: decoder for the record shape
`Save` writes; any other content is a decode error (`none`). -/
def unmarshal (s : List Char) : Option DaemonConfig := do
  let s1 ← expectLit jOpen s
  let (pid, s2) ← parseInt s1
  let s3 ← expectLit jPort s2
  let (port, s4) ← parseInt s3
  let s5 ← expectLit jStarted s4
  let (st, s6) ← parseInt s5
  let s7 ← expectLit jClose s6
  if s7.isEmpty then some ⟨pid, port, st⟩ else none

/-! ## Filesystem model and `FileConfigStore` (config.go) -/

/-- The slice of the filesystem the store touches: whether the config
directory exists, and the config file's content (`none` = absent). -/
structure FS where
  dirExists : Bool
  file : Option (List Char)
deriving DecidableEq

/-- `Load`'s two failure modes: `ErrConfigNotFound` for an absent file,
a JSON decode error for malformed content. -/
inductive LoadErr where
  | notFound
  | decodeErr
deriving DecidableEq, Repr

namespace FileConfigStore

/-- `FileConfigStore.Load`: read the file (absent ↦ `ErrConfigNotFound`),
then `json.Unmarshal` (failure ↦ decode error). -/
def load (fs : FS) : Except LoadErr DaemonConfig :=
  match fs.file with
  | none => .error .notFound
  | some data =>
    match unmarshal data with
    | none => .error .decodeErr
    | some c => .ok c

/-- `FileConfigStore.Save`: `os.MkdirAll` on the config directory, then
`os.WriteFile` of the marshalled record (whole-file overwrite). -/
def save (c : DaemonConfig) (_fs : FS) : FS :=
  { dirExists := true, file := some (marshal c) }

/-- `FileConfigStore.Delete`: `os.Remove`; a missing file is not an error. -/
def delete (fs : FS) : FS := { fs with file := none }

end FileConfigStore

/-! ## DaemonManager embedding (daemon.go)

The manager's injected collaborators are embedded as behaviour fields of
an environment `Env`; every collaborator call an operation makes is
appended to an event trace, and its effects (config file changes, a
killed process dying, the tick of the health-poll clock) update the
environment. -/

/-- `DaemonStatus` (daemon.go): the zero-value struct is returned on every
not-running path. -/
structure DaemonStatus where
  running : Bool
  pid : Int
  port : Int
  startedAt : Int
  uptime : Int
deriving DecidableEq, Repr

/-- The zero `DaemonStatus` (`&DaemonStatus{Running: false}`). -/
def notRunningStatus : DaemonStatus :=
  { running := false, pid := 0, port := 0, startedAt := 0, uptime := 0 }

/-- The manager's error taxonomy.  `loadFailed` is the
`failed to load config: %w` wrapper around a `ConfigStore.Load` error,
`killFailed` the `failed to stop daemon: %w` wrapper around a kill error,
the rest are the named sentinel errors of daemon.go. -/
inductive DMErr where
  | alreadyRunning
  | notRunning
  | cliNotFound
  | startTimeoutE
  | startProcessFailed
  | saveFailed
  | killFailed
  | loadFailed (e : LoadErr)
deriving DecidableEq, Repr

/-- One collaborator call, as recorded in an operation's trace. -/
inductive Ev where
  | loadC
  | saveC (c : DaemonConfig)
  | deleteC
  | livenessC (pid : Int)
  | killC (pid : Int)
  | spawnC (path : String) (args : List String)
  | pingC (host : String) (port : Int)
deriving DecidableEq, Repr

/-- Is this event a `HealthChecker.Ping` call? -/
def Ev.isPing : Ev → Bool
  | .pingC _ _ => true
  | _ => false

/-- Is this event a `ProcessManager.StartProcess` call? -/
def Ev.isSpawn : Ev → Bool
  | .spawnC _ _ => true
  | _ => false

/-- Environment: the filesystem plus the behaviour of the injected
collaborators.  `ping` is indexed by a tick counter so the health of the
worker may change between successive `Ping` calls; `tick` advances by one
at every `Ping`. -/
structure Env where
  fs : FS
  alive : Int → Bool
  ping : Nat → Int → Bool
  tick : Nat
  killOk : Int → Bool
  cli : Option String
  spawn : Option Int
  saveOk : Bool
  now : Int

/-- Result, post-state and call trace of one manager operation. -/
structure Out (α : Type) where
  res : α
  env : Env
  tr : List Ev

/-- Constants of daemon.go. -/
def DefaultPort : Int := 4321

/-- `startTimeout = 30 * time.Second`, in milliseconds. -/
def startTimeoutMs : Nat := 30000

/-- `stopTimeout = 5 * time.Second`, in milliseconds. -/
def stopTimeoutMs : Nat := 5000

/-- `healthCheckTimeout = 5 * time.Second`, in milliseconds. -/
def healthCheckTimeoutMs : Nat := 5000

/-- The fixed poll interval of `waitForHealthy` (`500 * time.Millisecond`). -/
def tickIntervalMs : Nat := 500

def localhostS : String := "localhost"

/-- `DaemonManager`'s own configuration fields (`port`, `startTimeout`). -/
structure DM where
  port : Int
  startTimeoutMsF : Nat

/-- `NewDaemonManager` field defaults: `DefaultPort` and `startTimeout`. -/
def defaultDM : DM := { port := DefaultPort, startTimeoutMsF := startTimeoutMs }

/-- `SetStartTimeout` (configurable for testing). -/
def DM.setStartTimeout (d : DM) (ms : Nat) : DM := { d with startTimeoutMsF := ms }

/-- Number of 500 ms ticks before the start deadline elapses. -/
def DM.startTicks (d : DM) : Nat := d.startTimeoutMsF / tickIntervalMs

/-- The fixed argument vector `Start` passes to the worker
(`--server --port <P> --no-auto-update --log-level error`). -/
def startArgs (port : Int) : List String :=
  ["--server", "--port", toString port, "--no-auto-update", "--log-level", "error"]

/-- Effect of `ProcessManager.Kill pid`: when the kill succeeds the
process is no longer alive; a failed kill leaves it untouched. -/
def killEffect (pid : Int) (e : Env) : Env :=
  if e.killOk pid then
    { e with alive := fun p => if p = pid then false else e.alive p }
  else e

/-- `DaemonManager.Status` (daemon.go:234-265): load the record
(`ErrConfigNotFound` ↦ zero status, other load errors propagate); check
`process.IsRunning`, and only when alive, `health.Ping("localhost",
config.Port, healthCheckTimeout)`; on any failed check delete the stale
record and report not running; otherwise report the running status with
`Uptime = now - StartedAt`. -/
def statusOp (_d : DM) (e : Env) : Out (Except DMErr DaemonStatus) :=
  match FileConfigStore.load e.fs with
  | .error .notFound => ⟨.ok notRunningStatus, e, [.loadC]⟩
  | .error err => ⟨.error (.loadFailed err), e, [.loadC]⟩
  | .ok c =>
    if e.alive c.pid then
      let healthy := e.ping e.tick c.port
      let e1 := { e with tick := e.tick + 1 }
      if healthy then
        ⟨.ok { running := true, pid := c.pid, port := c.port,
               startedAt := c.startedAt, uptime := e.now - c.startedAt },
         e1, [.loadC, .livenessC c.pid, .pingC localhostS c.port]⟩
      else
        ⟨.ok notRunningStatus,
         { e1 with fs := FileConfigStore.delete e1.fs },
         [.loadC, .livenessC c.pid, .pingC localhostS c.port, .deleteC]⟩
    else
      ⟨.ok notRunningStatus,
       { e with fs := FileConfigStore.delete e.fs },
       [.loadC, .livenessC c.pid, .deleteC]⟩

/-- `DaemonManager.IsRunning` (daemon.go:268-274): `Status().Running`,
with any `Status` error collapsed to `false`. -/
def isRunningOp (d : DM) (e : Env) : Out Bool :=
  let o := statusOp d e
  match o.res with
  | .error _ => ⟨false, o.env, o.tr⟩
  | .ok s => ⟨s.running, o.env, o.tr⟩

/-- `DaemonManager.GetPort` (daemon.go:277-286): `Status` errors
propagate, a not-running status maps to `ErrDaemonNotRunning`, otherwise
the recorded port is returned. -/
def getPortOp (d : DM) (e : Env) : Out (Except DMErr Int) :=
  let o := statusOp d e
  match o.res with
  | .error err => ⟨.error err, o.env, o.tr⟩
  | .ok s =>
    if s.running then ⟨.ok s.port, o.env, o.tr⟩
    else ⟨.error .notRunning, o.env, o.tr⟩

/-- `DaemonManager.Stop` (daemon.go:201-231): load (`ErrConfigNotFound` ↦
`ErrDaemonNotRunning`, other load errors propagate); a dead recorded
process means delete-and-`ErrDaemonNotRunning`; otherwise kill (a kill
failure is surfaced and nothing else happens) and then delete. -/
def stopOp (_d : DM) (e : Env) : Out (Except DMErr Unit) :=
  match FileConfigStore.load e.fs with
  | .error .notFound => ⟨.error .notRunning, e, [.loadC]⟩
  | .error err => ⟨.error (.loadFailed err), e, [.loadC]⟩
  | .ok c =>
    if e.alive c.pid then
      if e.killOk c.pid then
        let e1 := killEffect c.pid e
        ⟨.ok (), { e1 with fs := FileConfigStore.delete e1.fs },
         [.loadC, .livenessC c.pid, .killC c.pid, .deleteC]⟩
      else
        ⟨.error .killFailed, e, [.loadC, .livenessC c.pid, .killC c.pid]⟩
    else
      ⟨.error .notRunning,
       { e with fs := FileConfigStore.delete e.fs },
       [.loadC, .livenessC c.pid, .deleteC]⟩

/-- `DaemonManager.waitForHealthy` (daemon.go:184-198): poll
`health.Ping("localhost", d.port, healthCheckTimeout)` once per 500 ms
tick until a ping succeeds, or fail with `ErrStartTimeout` when the
context deadline (`fuel` remaining ticks) elapses first. -/
def waitForHealthyM (d : DM) : Nat → Env → Out (Except DMErr Unit)
  | 0, e => ⟨.error .startTimeoutE, e, []⟩
  | fuel + 1, e =>
    let healthy := e.ping e.tick d.port
    let e1 := { e with tick := e.tick + 1 }
    if healthy then ⟨.ok (), e1, [.pingC localhostS d.port]⟩
    else
      let o := waitForHealthyM d fuel e1
      ⟨o.res, o.env, .pingC localhostS d.port :: o.tr⟩

/-- `DaemonManager.Start` (daemon.go:126-181): bail out with
`ErrDaemonAlreadyRunning` when `IsRunning()`; best-effort delete of any
stale record; locate the CLI (`ErrCLINotFound` on failure); spawn the
worker with `startArgs`; wait for health (timeout kills the spawn and
fails with `ErrStartTimeout`); persist the record (a save failure kills
the spawn and is surfaced). -/
def startOp (d : DM) (e : Env) : Out (Except DMErr Unit) :=
  let o1 := isRunningOp d e
  if o1.res then ⟨.error .alreadyRunning, o1.env, o1.tr⟩
  else
    let e2 := { o1.env with fs := FileConfigStore.delete o1.env.fs }
    let tr2 := o1.tr ++ [.deleteC]
    match e2.cli with
    | none => ⟨.error .cliNotFound, e2, tr2⟩
    | some path =>
      match e2.spawn with
      | none => ⟨.error .startProcessFailed, e2,
                 tr2 ++ [.spawnC path (startArgs d.port)]⟩
      | some pid =>
        let e3 := { e2 with alive := fun p => if p = pid then true else e2.alive p }
        let tr3 := tr2 ++ [.spawnC path (startArgs d.port)]
        let o4 := waitForHealthyM d d.startTicks e3
        match o4.res with
        | .error _ =>
          ⟨.error .startTimeoutE, killEffect pid o4.env, tr3 ++ o4.tr ++ [.killC pid]⟩
        | .ok _ =>
          let c : DaemonConfig := { pid := pid, port := d.port, startedAt := o4.env.now }
          if o4.env.saveOk then
            ⟨.ok (), { o4.env with fs := FileConfigStore.save c o4.env.fs },
             tr3 ++ o4.tr ++ [.saveC c]⟩
          else
            ⟨.error .saveFailed, killEffect pid o4.env,
             tr3 ++ o4.tr ++ [.saveC c, .killC pid]⟩

/-! ## Concrete environments (used by witnesses and counterexamples) -/

/-- A sample persisted record. -/
def cfgW : DaemonConfig := { pid := 7, port := 4321, startedAt := 10 }

/-- Base environment: record for `cfgW` on disk, process 7 alive, worker
healthy, kills succeed, CLI found, spawn yields PID 12345, saves succeed. -/
def envW : Env :=
  { fs := { dirExists := true, file := some (marshal cfgW) }
    alive := fun p => p == 7
    ping := fun _ _ => true
    tick := 0
    killOk := fun _ => true
    cli := some ("/usr/bin/copilot")
    spawn := some 12345
    saveOk := true
    now := 100 }

/-- `envW` with the recorded process dead. -/
def envWdead : Env := { envW with alive := fun _ => false }

/-- `envW` with the worker alive but never reachable. -/
def envWunhealthy : Env := { envW with ping := fun _ _ => false }

/-- `envW` with kills failing. -/
def envWkillFail : Env := { envW with killOk := fun _ => false }

/-- Fresh environment (no config file on disk). -/
def envWfresh : Env := { envW with fs := { dirExists := false, file := none } }

/-- Fresh environment whose worker never becomes healthy. -/
def envWtimeout : Env := { envWfresh with ping := fun _ _ => false }

/-- Fresh environment where persisting the record fails. -/
def envWsaveFail : Env := { envWfresh with saveOk := false }

/-- Environment whose config file holds text that is not a record. -/
def envWbadFile : Env :=
  { envW with fs := { dirExists := true, file := some (String.toList "not valid json") } }

/-- The environment right after `Start` has discarded the stale record and
spawned the worker: config file gone, new process `pid` alive. -/
def postSpawnEnv (e1 : Env) (pid : Int) : Env :=
  { e1 with fs := FileConfigStore.delete e1.fs
            alive := fun p => if p = pid then true else e1.alive p }

/-! ## Roundtrip lemmas for the encoding -/

theorem expectLit_append (lit rest : List Char) :
    expectLit lit (lit ++ rest) = some rest := by
  induction lit with
  | nil => rfl
  | cons c cs ih => simp [expectLit, ih]

theorem digitChar_isDigit {d : Nat} (h : d < 10) :
    (Nat.digitChar d).isDigit = true := by
  interval_cases d <;> decide

theorem digitVal_digitChar {d : Nat} (h : d < 10) :
    digitVal (Nat.digitChar d) = d := by
  interval_cases d <;> decide

theorem natDigitsAux_digits {fuel n : Nat} (h : n < fuel) :
    ∀ c ∈ natDigitsAux fuel n, c.isDigit = true := by
  induction fuel generalizing n with
  | zero => omega
  | succ fuel ih =>
    intro c hc
    by_cases h10 : n < 10
    · rw [show natDigitsAux (fuel + 1) n = [Nat.digitChar n] by
        simp only [natDigitsAux, if_pos h10]] at hc
      simp only [List.mem_singleton] at hc
      subst hc
      exact digitChar_isDigit h10
    · rw [show natDigitsAux (fuel + 1) n
          = natDigitsAux fuel (n / 10) ++ [Nat.digitChar (n % 10)] by
        simp only [natDigitsAux, if_neg h10]] at hc
      simp only [List.mem_append, List.mem_singleton] at hc
      rcases hc with hc | hc
      · exact ih (by have := Nat.div_lt_self (by omega : 0 < n) (by omega : 1 < 10); omega) c hc
      · subst hc
        exact digitChar_isDigit (Nat.mod_lt n (by omega))

theorem natDigitsAux_ne_nil {fuel n : Nat} (h : n < fuel) :
    natDigitsAux fuel n ≠ [] := by
  cases fuel with
  | zero => omega
  | succ fuel =>
    by_cases h10 : n < 10
    · simp [natDigitsAux, h10]
    · simp [natDigitsAux, h10]

theorem digitsToNat_append (acc : Nat) (u v : List Char) :
    digitsToNat acc (u ++ v) = digitsToNat (digitsToNat acc u) v := by
  induction u generalizing acc with
  | nil => rfl
  | cons c cs ih => exact ih (acc * 10 + digitVal c)

theorem digitsToNat_natDigitsAux {fuel n : Nat} (h : n < fuel) :
    digitsToNat 0 (natDigitsAux fuel n) = n := by
  induction fuel generalizing n with
  | zero => omega
  | succ fuel ih =>
    by_cases h10 : n < 10
    · rw [show natDigitsAux (fuel + 1) n = [Nat.digitChar n] by
        simp only [natDigitsAux, if_pos h10]]
      show 0 * 10 + digitVal (Nat.digitChar n) = n
      rw [digitVal_digitChar h10]
      omega
    · have hdiv : n / 10 < fuel := by
        have := Nat.div_lt_self (by omega : 0 < n) (by omega : 1 < 10)
        omega
      rw [show natDigitsAux (fuel + 1) n
          = natDigitsAux fuel (n / 10) ++ [Nat.digitChar (n % 10)] by
        simp only [natDigitsAux, if_neg h10]]
      rw [digitsToNat_append, ih hdiv]
      show (n / 10) * 10 + digitVal (Nat.digitChar (n % 10)) = n
      rw [digitVal_digitChar (Nat.mod_lt n (by omega))]
      omega

theorem natDigits_digits (n : Nat) : ∀ c ∈ natDigits n, c.isDigit = true :=
  natDigitsAux_digits (Nat.lt_succ_self n)

theorem natDigits_ne_nil (n : Nat) : natDigits n ≠ [] :=
  natDigitsAux_ne_nil (Nat.lt_succ_self n)

theorem digitsToNat_natDigits (n : Nat) : digitsToNat 0 (natDigits n) = n :=
  digitsToNat_natDigitsAux (Nat.lt_succ_self n)

/-- Splitting `takeWhile` across an all-true block followed by a
false-headed remainder. -/
theorem takeWhile_block (p : Char → Bool) (l1 l2 : List Char)
    (h1 : ∀ c ∈ l1, p c = true)
    (h2 : ∀ c t, l2 = c :: t → p c = false) :
    (l1 ++ l2).takeWhile p = l1 := by
  induction l1 with
  | nil =>
    cases l2 with
    | nil => rfl
    | cons c t => simp [List.takeWhile, h2 c t rfl]
  | cons c cs ih =>
    have hc : p c = true := h1 c (by simp)
    simp only [List.cons_append, List.takeWhile_cons, hc, if_true]
    rw [ih (fun x hx => h1 x (by simp [hx]))]

theorem dropWhile_block (p : Char → Bool) (l1 l2 : List Char)
    (h1 : ∀ c ∈ l1, p c = true)
    (h2 : ∀ c t, l2 = c :: t → p c = false) :
    (l1 ++ l2).dropWhile p = l2 := by
  induction l1 with
  | nil =>
    cases l2 with
    | nil => rfl
    | cons c t => simp [List.dropWhile, h2 c t rfl]
  | cons c cs ih =>
    have hc : p c = true := h1 c (by simp)
    simp only [List.cons_append, List.dropWhile_cons, hc, if_true]
    exact ih (fun x hx => h1 x (by simp [hx]))

theorem parseNat_natDigits (n : Nat) (rest : List Char)
    (hrest : ∀ c t, rest = c :: t → c.isDigit = false) :
    parseNat (natDigits n ++ rest) = some (n, rest) := by
  have htake := takeWhile_block Char.isDigit (natDigits n) rest (natDigits_digits n) hrest
  have hdrop := dropWhile_block Char.isDigit (natDigits n) rest (natDigits_digits n) hrest
  simp only [parseNat, htake, hdrop]
  rw [if_neg (by simpa [List.isEmpty_iff] using natDigits_ne_nil n)]
  rw [digitsToNat_natDigits]

theorem parseInt_encInt (i : Int) (rest : List Char)
    (hrest : ∀ c t, rest = c :: t → c.isDigit = false) :
    parseInt (encInt i ++ rest) = some (i, rest) := by
  by_cases hneg : i < 0
  · simp only [encInt, if_pos hneg, List.cons_append, parseInt, if_pos rfl,
      parseNat_natDigits i.natAbs rest hrest]
    have : ((i.natAbs : Int)) = -i := by omega
    simp [this]
  · simp only [encInt, if_neg hneg]
    obtain ⟨c, cs, hcons⟩ : ∃ c cs, natDigits i.natAbs = c :: cs := by
      cases h : natDigits i.natAbs with
      | nil => exact absurd h (natDigits_ne_nil _)
      | cons c cs => exact ⟨c, cs, rfl⟩
    have hcd : c.isDigit = true := by
      have := natDigits_digits i.natAbs c (by simp [hcons])
      exact this
    have hcne : ¬(c = '-') := by
      intro h
      subst h
      simp at hcd
    rw [hcons]
    simp only [List.cons_append, parseInt, if_neg hcne]
    have := parseNat_natDigits i.natAbs rest hrest
    rw [hcons] at this
    simp only [List.cons_append] at this
    rw [this]
    have : ((i.natAbs : Int)) = i := by omega
    simp [this]

theorem head_notDigit_jPort (x : List Char) :
    ∀ c t, jPort ++ x = c :: t → c.isDigit = false := by
  intro c t h
  simp [jPort] at h
  obtain ⟨rfl, -⟩ := h
  decide

theorem head_notDigit_jStarted (x : List Char) :
    ∀ c t, jStarted ++ x = c :: t → c.isDigit = false := by
  intro c t h
  simp [jStarted] at h
  obtain ⟨rfl, -⟩ := h
  decide

theorem head_notDigit_jClose :
    ∀ c t, jClose = c :: t → c.isDigit = false := by
  intro c t h
  simp [jClose] at h
  obtain ⟨rfl, -⟩ := h
  decide

/-- Decoding inverts encoding: `unmarshal (marshal c) = some c`. -/
theorem unmarshal_marshal (c : DaemonConfig) : unmarshal (marshal c) = some c := by
  have h1 : expectLit jOpen (marshal c)
      = some (encInt c.pid ++ (jPort ++ (encInt c.port
          ++ (jStarted ++ (encInt c.startedAt ++ jClose))))) := by
    simp only [marshal, List.append_assoc]
    exact expectLit_append jOpen _
  have h2 := parseInt_encInt c.pid
    (jPort ++ (encInt c.port ++ (jStarted ++ (encInt c.startedAt ++ jClose))))
    (head_notDigit_jPort _)
  have h3 := expectLit_append jPort
    (encInt c.port ++ (jStarted ++ (encInt c.startedAt ++ jClose)))
  have h4 := parseInt_encInt c.port
    (jStarted ++ (encInt c.startedAt ++ jClose))
    (head_notDigit_jStarted _)
  have h5 := expectLit_append jStarted (encInt c.startedAt ++ jClose)
  have h6 := parseInt_encInt c.startedAt jClose
    (fun c' t h => head_notDigit_jClose c' t h)
  have h7 : expectLit jClose jClose = some [] := by
    have := expectLit_append jClose []
    simpa using this
  simp only [unmarshal, h1, Option.bind_eq_bind, Option.some_bind, h2, h3, h4, h5, h6, h7]
  rfl

/-! ## Branch lemmas for the operations -/

theorem statusOp_notFound (d : DM) (e : Env)
    (h : FileConfigStore.load e.fs = .error .notFound) :
    statusOp d e = ⟨.ok notRunningStatus, e, [.loadC]⟩ := by
  simp only [statusOp, h]

theorem statusOp_decodeErr (d : DM) (e : Env)
    (h : FileConfigStore.load e.fs = .error .decodeErr) :
    statusOp d e = ⟨.error (.loadFailed .decodeErr), e, [.loadC]⟩ := by
  simp only [statusOp, h]

theorem statusOp_dead (d : DM) (e : Env) (c : DaemonConfig)
    (h : FileConfigStore.load e.fs = .ok c) (ha : e.alive c.pid = false) :
    statusOp d e = ⟨.ok notRunningStatus,
      { e with fs := FileConfigStore.delete e.fs },
      [.loadC, .livenessC c.pid, .deleteC]⟩ := by
  simp only [statusOp, h, ha, Bool.false_eq_true, if_false]

theorem statusOp_unhealthy (d : DM) (e : Env) (c : DaemonConfig)
    (h : FileConfigStore.load e.fs = .ok c) (ha : e.alive c.pid = true)
    (hp : e.ping e.tick c.port = false) :
    statusOp d e = ⟨.ok notRunningStatus,
      { e with tick := e.tick + 1, fs := FileConfigStore.delete e.fs },
      [.loadC, .livenessC c.pid, .pingC localhostS c.port, .deleteC]⟩ := by
  simp only [statusOp, h, ha, hp, Bool.false_eq_true, if_false, if_true]

theorem statusOp_healthy (d : DM) (e : Env) (c : DaemonConfig)
    (h : FileConfigStore.load e.fs = .ok c) (ha : e.alive c.pid = true)
    (hp : e.ping e.tick c.port = true) :
    statusOp d e = ⟨.ok { running := true, pid := c.pid, port := c.port,
                          startedAt := c.startedAt, uptime := e.now - c.startedAt },
      { e with tick := e.tick + 1 },
      [.loadC, .livenessC c.pid, .pingC localhostS c.port]⟩ := by
  simp only [statusOp, h, ha, hp, if_true]

theorem stopOp_notFound (d : DM) (e : Env)
    (h : FileConfigStore.load e.fs = .error .notFound) :
    stopOp d e = ⟨.error .notRunning, e, [.loadC]⟩ := by
  simp only [stopOp, h]

theorem stopOp_decodeErr (d : DM) (e : Env)
    (h : FileConfigStore.load e.fs = .error .decodeErr) :
    stopOp d e = ⟨.error (.loadFailed .decodeErr), e, [.loadC]⟩ := by
  simp only [stopOp, h]

theorem stopOp_dead (d : DM) (e : Env) (c : DaemonConfig)
    (h : FileConfigStore.load e.fs = .ok c) (ha : e.alive c.pid = false) :
    stopOp d e = ⟨.error .notRunning,
      { e with fs := FileConfigStore.delete e.fs },
      [.loadC, .livenessC c.pid, .deleteC]⟩ := by
  simp only [stopOp, h, ha, Bool.false_eq_true, if_false]

theorem stopOp_killFail (d : DM) (e : Env) (c : DaemonConfig)
    (h : FileConfigStore.load e.fs = .ok c) (ha : e.alive c.pid = true)
    (hk : e.killOk c.pid = false) :
    stopOp d e = ⟨.error .killFailed, e,
      [.loadC, .livenessC c.pid, .killC c.pid]⟩ := by
  simp only [stopOp, h, ha, hk, Bool.false_eq_true, if_false, if_true]

theorem stopOp_killOk (d : DM) (e : Env) (c : DaemonConfig)
    (h : FileConfigStore.load e.fs = .ok c) (ha : e.alive c.pid = true)
    (hk : e.killOk c.pid = true) :
    stopOp d e = ⟨.ok (),
      { killEffect c.pid e with fs := FileConfigStore.delete (killEffect c.pid e).fs },
      [.loadC, .livenessC c.pid, .killC c.pid, .deleteC]⟩ := by
  simp only [stopOp, h, ha, hk, if_true]

/-- Deleting the file makes a subsequent `Load` report `ErrConfigNotFound`. -/
theorem load_delete (fs : FS) :
    FileConfigStore.load (FileConfigStore.delete fs) = .error .notFound := rfl

/-- `Status` leaves every part of the environment except the config file
and the ping clock untouched. -/
theorem statusOp_preserves (d : DM) (e : Env) :
    (statusOp d e).env.alive = e.alive ∧ (statusOp d e).env.cli = e.cli ∧
    (statusOp d e).env.spawn = e.spawn ∧ (statusOp d e).env.killOk = e.killOk ∧
    (statusOp d e).env.saveOk = e.saveOk ∧ (statusOp d e).env.now = e.now ∧
    (statusOp d e).env.ping = e.ping := by
  rcases hl : FileConfigStore.load e.fs with err | c
  · cases err
    · rw [statusOp_notFound d e hl]
      exact ⟨rfl, rfl, rfl, rfl, rfl, rfl, rfl⟩
    · rw [statusOp_decodeErr d e hl]
      exact ⟨rfl, rfl, rfl, rfl, rfl, rfl, rfl⟩
  · rcases ha : e.alive c.pid
    · rw [statusOp_dead d e c hl ha]
      exact ⟨rfl, rfl, rfl, rfl, rfl, rfl, rfl⟩
    · rcases hp : e.ping e.tick c.port
      · rw [statusOp_unhealthy d e c hl ha hp]
        exact ⟨rfl, rfl, rfl, rfl, rfl, rfl, rfl⟩
      · rw [statusOp_healthy d e c hl ha hp]
        exact ⟨rfl, rfl, rfl, rfl, rfl, rfl, rfl⟩

/-- `Status` never spawns and never kills. -/
theorem statusOp_calls (d : DM) (e : Env) :
    ∀ ev ∈ (statusOp d e).tr, ev.isSpawn = false ∧ ∀ p, ev ≠ Ev.killC p := by
  rcases hl : FileConfigStore.load e.fs with err | c
  · cases err
    · rw [statusOp_notFound d e hl]
      intro ev hev
      simp only [List.mem_singleton] at hev
      subst hev
      exact ⟨rfl, by simp⟩
    · rw [statusOp_decodeErr d e hl]
      intro ev hev
      simp only [List.mem_singleton] at hev
      subst hev
      exact ⟨rfl, by simp⟩
  · rcases ha : e.alive c.pid
    · rw [statusOp_dead d e c hl ha]
      intro ev hev
      simp only [List.mem_cons, List.not_mem_nil, or_false] at hev
      rcases hev with rfl | rfl | rfl <;> exact ⟨rfl, by simp⟩
    · rcases hp : e.ping e.tick c.port
      · rw [statusOp_unhealthy d e c hl ha hp]
        intro ev hev
        simp only [List.mem_cons, List.not_mem_nil, or_false] at hev
        rcases hev with rfl | rfl | rfl | rfl <;> exact ⟨rfl, by simp⟩
      · rw [statusOp_healthy d e c hl ha hp]
        intro ev hev
        simp only [List.mem_cons, List.not_mem_nil, or_false] at hev
        rcases hev with rfl | rfl | rfl <;> exact ⟨rfl, by simp⟩

/-- `IsRunning` is `Status` with the result collapsed to a boolean. -/
theorem isRunningOp_env_tr (d : DM) (e : Env) :
    (isRunningOp d e).env = (statusOp d e).env ∧
    (isRunningOp d e).tr = (statusOp d e).tr := by
  simp only [isRunningOp]
  rcases (statusOp d e).res with err | s <;> exact ⟨rfl, rfl⟩

theorem isRunningOp_res_true (d : DM) (e : Env)
    (h : (isRunningOp d e).res = true) :
    ∃ s : DaemonStatus, (statusOp d e).res = .ok s ∧ s.running = true := by
  simp only [isRunningOp] at h
  rcases hs : (statusOp d e).res with err | s
  · rw [hs] at h
    simp at h
  · rw [hs] at h
    simp only at h
    exact ⟨s, rfl, h⟩

theorem isRunningOp_res_of_status (d : DM) (e : Env) (s : DaemonStatus)
    (h : (statusOp d e).res = .ok s) : (isRunningOp d e).res = s.running := by
  simp only [isRunningOp, h]

theorem isRunningOp_res_of_statusErr (d : DM) (e : Env) (err : DMErr)
    (h : (statusOp d e).res = .error err) : (isRunningOp d e).res = false := by
  simp only [isRunningOp, h]

theorem getPortOp_env_tr (d : DM) (e : Env) :
    (getPortOp d e).env = (statusOp d e).env ∧
    (getPortOp d e).tr = (statusOp d e).tr := by
  simp only [getPortOp]
  rcases (statusOp d e).res with err | s
  · exact ⟨rfl, rfl⟩
  · by_cases hr : s.running = true <;> simp [hr]

/-! ## `waitForHealthy` characterization -/

/-- Unfolding: a tick whose ping succeeds ends the wait. -/
theorem waitForHealthyM_succ_pos (d : DM) (fuel : Nat) (e : Env)
    (hp : e.ping e.tick d.port = true) :
    waitForHealthyM d (fuel + 1) e
      = ⟨.ok (), { e with tick := e.tick + 1 }, [.pingC localhostS d.port]⟩ := by
  simp [waitForHealthyM, hp]

/-- Unfolding: a tick whose ping fails recurses with the clock advanced. -/
theorem waitForHealthyM_succ_neg (d : DM) (fuel : Nat) (e : Env)
    (hp : e.ping e.tick d.port = false) :
    waitForHealthyM d (fuel + 1) e
      = ⟨(waitForHealthyM d fuel { e with tick := e.tick + 1 }).res,
         (waitForHealthyM d fuel { e with tick := e.tick + 1 }).env,
         Ev.pingC localhostS d.port
           :: (waitForHealthyM d fuel { e with tick := e.tick + 1 }).tr⟩ := by
  simp [waitForHealthyM, hp]

theorem waitForHealthyM_preserves (d : DM) (fuel : Nat) (e : Env) :
    (waitForHealthyM d fuel e).env.fs = e.fs ∧
    (waitForHealthyM d fuel e).env.alive = e.alive ∧
    (waitForHealthyM d fuel e).env.cli = e.cli ∧
    (waitForHealthyM d fuel e).env.spawn = e.spawn ∧
    (waitForHealthyM d fuel e).env.killOk = e.killOk ∧
    (waitForHealthyM d fuel e).env.saveOk = e.saveOk ∧
    (waitForHealthyM d fuel e).env.now = e.now ∧
    (waitForHealthyM d fuel e).env.ping = e.ping := by
  induction fuel generalizing e with
  | zero => exact ⟨rfl, rfl, rfl, rfl, rfl, rfl, rfl, rfl⟩
  | succ fuel ih =>
    rcases hp : e.ping e.tick d.port
    · rw [waitForHealthyM_succ_neg d fuel e hp]
      exact ih { e with tick := e.tick + 1 }
    · rw [waitForHealthyM_succ_pos d fuel e hp]
      exact ⟨rfl, rfl, rfl, rfl, rfl, rfl, rfl, rfl⟩

/-- `waitForHealthy` returns `nil` or `ErrStartTimeout`, nothing else. -/
theorem waitForHealthyM_res (d : DM) (fuel : Nat) (e : Env) :
    (waitForHealthyM d fuel e).res = .ok () ∨
    (waitForHealthyM d fuel e).res = .error .startTimeoutE := by
  induction fuel generalizing e with
  | zero => exact Or.inr rfl
  | succ fuel ih =>
    rcases hp : e.ping e.tick d.port
    · rw [waitForHealthyM_succ_neg d fuel e hp]
      exact ih { e with tick := e.tick + 1 }
    · rw [waitForHealthyM_succ_pos d fuel e hp]
      exact Or.inl rfl

theorem waitForHealthyM_ok_iff (d : DM) (fuel : Nat) (e : Env) :
    (waitForHealthyM d fuel e).res = .ok () ↔
    ∃ i, i < fuel ∧ e.ping (e.tick + i) d.port = true := by
  induction fuel generalizing e with
  | zero =>
    constructor
    · intro h
      exact absurd h (by simp [waitForHealthyM])
    · rintro ⟨i, hi, -⟩
      omega
  | succ fuel ih =>
    rcases hp : e.ping e.tick d.port
    · rw [waitForHealthyM_succ_neg d fuel e hp]
      simp only
      rw [ih { e with tick := e.tick + 1 }]
      constructor
      · rintro ⟨i, hi, hping⟩
        refine ⟨i + 1, by omega, ?_⟩
        have harg : e.tick + 1 + i = e.tick + (i + 1) := by omega
        simp only at hping
        rwa [harg] at hping
      · rintro ⟨i, hi, hping⟩
        cases i with
        | zero =>
          rw [show e.tick + 0 = e.tick by omega] at hping
          exact absurd hping (by simp [hp])
        | succ j =>
          refine ⟨j, by omega, ?_⟩
          simp only
          have harg : e.tick + 1 + j = e.tick + (j + 1) := by omega
          rwa [harg]
    · rw [waitForHealthyM_succ_pos d fuel e hp]
      constructor
      · intro _
        exact ⟨0, by omega, by simpa using hp⟩
      · intro _
        rfl

/-- When every ping up to the deadline fails, `waitForHealthy` makes
exactly `fuel` ping attempts and then times out. -/
theorem waitForHealthyM_timeout (d : DM) (fuel : Nat) (e : Env)
    (h : ∀ i, i < fuel → e.ping (e.tick + i) d.port = false) :
    (waitForHealthyM d fuel e).res = .error .startTimeoutE ∧
    (waitForHealthyM d fuel e).tr.length = fuel := by
  induction fuel generalizing e with
  | zero => exact ⟨rfl, rfl⟩
  | succ fuel ih =>
    have hp : e.ping e.tick d.port = false := by
      have := h 0 (by omega)
      rwa [show e.tick + 0 = e.tick by omega] at this
    rw [waitForHealthyM_succ_neg d fuel e hp]
    have hrest : ∀ i, i < fuel →
        (Env.ping { e with tick := e.tick + 1 }) ((Env.tick { e with tick := e.tick + 1 }) + i)
          d.port = false := by
      intro i hi
      have := h (i + 1) (by omega)
      simp only
      rwa [show e.tick + (i + 1) = e.tick + 1 + i by omega] at this
    have hr := ih { e with tick := e.tick + 1 } hrest
    exact ⟨hr.1, by simpa using hr.2⟩

/-- When the first successful ping is attempt `k` (zero-based) and it lies
before the deadline, `waitForHealthy` succeeds after exactly `k + 1` pings. -/
theorem waitForHealthyM_firstHit (d : DM) (fuel : Nat) (e : Env) (k : Nat)
    (hk : k < fuel)
    (hbefore : ∀ i, i < k → e.ping (e.tick + i) d.port = false)
    (hhit : e.ping (e.tick + k) d.port = true) :
    (waitForHealthyM d fuel e).res = .ok () ∧
    (waitForHealthyM d fuel e).tr.length = k + 1 := by
  induction fuel generalizing e k with
  | zero => omega
  | succ fuel ih =>
    cases k with
    | zero =>
      have hp : e.ping e.tick d.port = true := by
        rwa [show e.tick + 0 = e.tick by omega] at hhit
      rw [waitForHealthyM_succ_pos d fuel e hp]
      exact ⟨rfl, rfl⟩
    | succ j =>
      have hp : e.ping e.tick d.port = false := by
        have := hbefore 0 (by omega)
        rwa [show e.tick + 0 = e.tick by omega] at this
      rw [waitForHealthyM_succ_neg d fuel e hp]
      have hbefore1 : ∀ i, i < j →
          (Env.ping { e with tick := e.tick + 1 })
            ((Env.tick { e with tick := e.tick + 1 }) + i) d.port = false := by
        intro i hi
        have := hbefore (i + 1) (by omega)
        simp only
        rwa [show e.tick + (i + 1) = e.tick + 1 + i by omega] at this
      have hhit1 : (Env.ping { e with tick := e.tick + 1 })
          ((Env.tick { e with tick := e.tick + 1 }) + j) d.port = true := by
        simp only
        rwa [show e.tick + (j + 1) = e.tick + 1 + j by omega] at hhit
      have hr := ih { e with tick := e.tick + 1 } j (by omega) hbefore1 hhit1
      exact ⟨hr.1, by simpa using hr.2⟩

/-- Every call `waitForHealthy` makes is a ping of `localhost` on the
manager's configured port. -/
theorem waitForHealthyM_tr (d : DM) (fuel : Nat) (e : Env) :
    ∀ ev ∈ (waitForHealthyM d fuel e).tr, ev = Ev.pingC localhostS d.port := by
  induction fuel generalizing e with
  | zero => intro ev hev; simp [waitForHealthyM] at hev
  | succ fuel ih =>
    rcases hp : e.ping e.tick d.port
    · rw [waitForHealthyM_succ_neg d fuel e hp]
      intro ev hev
      simp only [List.mem_cons] at hev
      rcases hev with rfl | hev
      · rfl
      · exact ih { e with tick := e.tick + 1 } ev hev
    · rw [waitForHealthyM_succ_pos d fuel e hp]
      intro ev hev
      simp only [List.mem_singleton] at hev
      exact hev

/-! ## `Start` branch lemmas -/

theorem killEffect_alive (pid : Int) (e : Env) (h : e.killOk pid = true) :
    (killEffect pid e).alive pid = false := by
  simp [killEffect, h]

theorem startOp_already (d : DM) (e : Env) (h : (isRunningOp d e).res = true) :
    startOp d e = ⟨.error .alreadyRunning, (isRunningOp d e).env, (isRunningOp d e).tr⟩ := by
  simp only [startOp, h, if_true]

theorem startOp_noCli (d : DM) (e : Env)
    (h : (isRunningOp d e).res = false)
    (hcli : (isRunningOp d e).env.cli = none) :
    (startOp d e).res = .error .cliNotFound ∧
    (startOp d e).tr = (isRunningOp d e).tr ++ [Ev.deleteC] := by
  simp only [startOp, h, Bool.false_eq_true, if_false, hcli]
  simp

theorem startOp_spawnFail (d : DM) (e : Env) (path : String)
    (h : (isRunningOp d e).res = false)
    (hcli : (isRunningOp d e).env.cli = some path)
    (hspawn : (isRunningOp d e).env.spawn = none) :
    (startOp d e).res = .error .startProcessFailed ∧
    (startOp d e).tr
      = (isRunningOp d e).tr ++ [Ev.deleteC] ++ [Ev.spawnC path (startArgs d.port)] := by
  simp only [startOp, h, Bool.false_eq_true, if_false, hcli, hspawn]
  simp

theorem startOp_spawned_timeout (d : DM) (e : Env) (path : String) (pid : Int)
    (h : (isRunningOp d e).res = false)
    (hcli : (isRunningOp d e).env.cli = some path)
    (hspawn : (isRunningOp d e).env.spawn = some pid)
    (h4 : (waitForHealthyM d d.startTicks
        (postSpawnEnv (isRunningOp d e).env pid)).res = .error .startTimeoutE) :
    (startOp d e).res = .error .startTimeoutE ∧
    (startOp d e).tr
      = (isRunningOp d e).tr ++ [Ev.deleteC] ++ [Ev.spawnC path (startArgs d.port)]
        ++ (waitForHealthyM d d.startTicks (postSpawnEnv (isRunningOp d e).env pid)).tr
        ++ [Ev.killC pid] ∧
    (startOp d e).env
      = killEffect pid
          (waitForHealthyM d d.startTicks (postSpawnEnv (isRunningOp d e).env pid)).env := by
  simp only [startOp, h, Bool.false_eq_true, if_false, hcli, hspawn, postSpawnEnv] at h4 ⊢
  simp only [h4]
  simp [List.append_assoc]

theorem startOp_spawned_saveFail (d : DM) (e : Env) (path : String) (pid : Int)
    (h : (isRunningOp d e).res = false)
    (hcli : (isRunningOp d e).env.cli = some path)
    (hspawn : (isRunningOp d e).env.spawn = some pid)
    (h4 : (waitForHealthyM d d.startTicks
        (postSpawnEnv (isRunningOp d e).env pid)).res = .ok ())
    (hsave : (isRunningOp d e).env.saveOk = false) :
    (startOp d e).res = .error .saveFailed ∧
    Ev.killC pid ∈ (startOp d e).tr ∧
    (startOp d e).env
      = killEffect pid
          (waitForHealthyM d d.startTicks (postSpawnEnv (isRunningOp d e).env pid)).env := by
  have hsave4 : (waitForHealthyM d d.startTicks
      (postSpawnEnv (isRunningOp d e).env pid)).env.saveOk = false := by
    rw [(waitForHealthyM_preserves d d.startTicks _).2.2.2.2.2.1]
    exact hsave
  simp only [startOp, h, Bool.false_eq_true, if_false, hcli, hspawn, postSpawnEnv] at h4 hsave4 ⊢
  simp only [h4, hsave4, Bool.false_eq_true, if_false]
  simp

theorem startOp_spawned_ok (d : DM) (e : Env) (path : String) (pid : Int)
    (h : (isRunningOp d e).res = false)
    (hcli : (isRunningOp d e).env.cli = some path)
    (hspawn : (isRunningOp d e).env.spawn = some pid)
    (h4 : (waitForHealthyM d d.startTicks
        (postSpawnEnv (isRunningOp d e).env pid)).res = .ok ())
    (hsave : (isRunningOp d e).env.saveOk = true) :
    (startOp d e).res = .ok () ∧
    (startOp d e).env.fs = FileConfigStore.save
      { pid := pid, port := d.port,
        startedAt := (waitForHealthyM d d.startTicks
          (postSpawnEnv (isRunningOp d e).env pid)).env.now }
      (waitForHealthyM d d.startTicks (postSpawnEnv (isRunningOp d e).env pid)).env.fs := by
  have hsave4 : (waitForHealthyM d d.startTicks
      (postSpawnEnv (isRunningOp d e).env pid)).env.saveOk = true := by
    rw [(waitForHealthyM_preserves d d.startTicks _).2.2.2.2.2.1]
    exact hsave
  simp only [startOp, h, Bool.false_eq_true, if_false, hcli, hspawn, postSpawnEnv] at h4 hsave4 ⊢
  simp only [h4, hsave4, if_true]
  simp

/-! ## Remaining helpers for the claims -/

theorem getPortOp_res_of_statusErr (d : DM) (e : Env) (err : DMErr)
    (h : (statusOp d e).res = .error err) :
    (getPortOp d e).res = .error err := by
  simp only [getPortOp, h]

theorem getPortOp_ok_cond (d : DM) (e : Env) (p : Int)
    (h : (getPortOp d e).res = .ok p) :
    ∃ s : DaemonStatus, (statusOp d e).res = .ok s ∧ s.running = true := by
  simp only [getPortOp] at h
  rcases hs : (statusOp d e).res with err | s
  · rw [hs] at h
    simp at h
  · rw [hs] at h
    by_cases hr : s.running = true
    · exact ⟨s, rfl, hr⟩
    · simp only [hr, Bool.false_eq_true, if_false] at h
      simp at h

/-- A running `Status` result certifies the record, the liveness check and
the health probe. -/
theorem statusOp_running_cond (d : DM) (e : Env) (s : DaemonStatus)
    (h : (statusOp d e).res = .ok s) (hr : s.running = true) :
    ∃ c, FileConfigStore.load e.fs = .ok c ∧ e.alive c.pid = true ∧
      e.ping e.tick c.port = true := by
  rcases hl : FileConfigStore.load e.fs with err | c
  · cases err
    · rw [statusOp_notFound d e hl] at h
      simp only [Except.ok.injEq] at h
      rw [← h] at hr
      simp [notRunningStatus] at hr
    · rw [statusOp_decodeErr d e hl] at h
      simp at h
  · rcases ha : e.alive c.pid
    · rw [statusOp_dead d e c hl ha] at h
      simp only [Except.ok.injEq] at h
      rw [← h] at hr
      simp [notRunningStatus] at hr
    · rcases hp : e.ping e.tick c.port
      · rw [statusOp_unhealthy d e c hl ha hp] at h
        simp only [Except.ok.injEq] at h
        rw [← h] at hr
        simp [notRunningStatus] at hr
      · exact ⟨c, rfl, ha, hp⟩

/-- `Stop` issues a kill only for the recorded PID, and only after the
liveness check succeeded. -/
theorem stopOp_kill_cond (d : DM) (e : Env) :
    ∀ pid, Ev.killC pid ∈ (stopOp d e).tr →
      ∃ c, FileConfigStore.load e.fs = .ok c ∧ c.pid = pid ∧
        e.alive pid = true := by
  intro pid hmem
  rcases hl : FileConfigStore.load e.fs with err | c
  · cases err
    · rw [stopOp_notFound d e hl] at hmem
      simp at hmem
    · rw [stopOp_decodeErr d e hl] at hmem
      simp at hmem
  · rcases ha : e.alive c.pid
    · rw [stopOp_dead d e c hl ha] at hmem
      simp at hmem
    · rcases hk : e.killOk c.pid
      · rw [stopOp_killFail d e c hl ha hk] at hmem
        simp at hmem
        subst hmem
        exact ⟨c, rfl, rfl, ha⟩
      · rw [stopOp_killOk d e c hl ha hk] at hmem
        simp at hmem
        subst hmem
        exact ⟨c, rfl, rfl, ha⟩

/-- `Stop` never consults the health checker. -/
theorem stopOp_no_ping (d : DM) (e : Env) :
    ∀ ev ∈ (stopOp d e).tr, ev.isPing = false := by
  intro ev hev
  rcases hl : FileConfigStore.load e.fs with err | c
  · cases err
    · rw [stopOp_notFound d e hl] at hev
      simp only [List.mem_singleton] at hev
      subst hev
      rfl
    · rw [stopOp_decodeErr d e hl] at hev
      simp only [List.mem_singleton] at hev
      subst hev
      rfl
  · rcases ha : e.alive c.pid
    · rw [stopOp_dead d e c hl ha] at hev
      simp only [List.mem_cons, List.not_mem_nil, or_false] at hev
      rcases hev with rfl | rfl | rfl <;> rfl
    · rcases hk : e.killOk c.pid
      · rw [stopOp_killFail d e c hl ha hk] at hev
        simp only [List.mem_cons, List.not_mem_nil, or_false] at hev
        rcases hev with rfl | rfl | rfl <;> rfl
      · rw [stopOp_killOk d e c hl ha hk] at hev
        simp only [List.mem_cons, List.not_mem_nil, or_false] at hev
        rcases hev with rfl | rfl | rfl | rfl <;> rfl

/-! ## The claims -/

/-- C2: whenever a valid record is persisted but the recorded process is
dead, or alive with a failing health probe, `Status` reports not running,
`IsRunning` reports `false`, and both delete the record, so a subsequent
`Load` reports `ErrConfigNotFound`. -/
theorem C2_stale_record_cleanup (d : DM) (e : Env) (c : DaemonConfig)
    (hload : FileConfigStore.load e.fs = .ok c)
    (hstale : e.alive c.pid = false ∨
      (e.alive c.pid = true ∧ e.ping e.tick c.port = false)) :
    (statusOp d e).res = .ok notRunningStatus ∧
    FileConfigStore.load (statusOp d e).env.fs = .error .notFound ∧
    (isRunningOp d e).res = false ∧
    FileConfigStore.load (isRunningOp d e).env.fs = .error .notFound := by
  have henv := (isRunningOp_env_tr d e).1
  rcases hstale with ha | ⟨ha, hp⟩
  · have hs := statusOp_dead d e c hload ha
    refine ⟨by rw [hs], by rw [hs]; exact load_delete e.fs, ?_, ?_⟩
    · have := isRunningOp_res_of_status d e notRunningStatus (by rw [hs])
      simpa [notRunningStatus] using this
    · rw [henv, hs]
      exact load_delete e.fs
  · have hs := statusOp_unhealthy d e c hload ha hp
    refine ⟨by rw [hs], by rw [hs]; exact load_delete e.fs, ?_, ?_⟩
    · have := isRunningOp_res_of_status d e notRunningStatus (by rw [hs])
      simpa [notRunningStatus] using this
    · rw [henv, hs]
      exact load_delete e.fs

theorem C2_witness :
    (statusOp defaultDM envWdead).res = .ok notRunningStatus ∧
    FileConfigStore.load (statusOp defaultDM envWdead).env.fs = .error .notFound ∧
    (isRunningOp defaultDM envWdead).res = false ∧
    FileConfigStore.load (isRunningOp defaultDM envWdead).env.fs = .error .notFound :=
  C2_stale_record_cleanup defaultDM envWdead cfgW (by decide) (Or.inl (by decide))

/-- C4: when the current status evaluates to running (valid record,
recorded process alive, health probe succeeding), `Start` fails with
`ErrDaemonAlreadyRunning` and `StartProcess` is never invoked. -/
theorem C4_no_duplicate_spawn (d : DM) (e : Env) (c : DaemonConfig)
    (hload : FileConfigStore.load e.fs = .ok c)
    (halive : e.alive c.pid = true)
    (hping : e.ping e.tick c.port = true) :
    (startOp d e).res = .error .alreadyRunning ∧
    ∀ ev ∈ (startOp d e).tr, ev.isSpawn = false := by
  have hs := statusOp_healthy d e c hload halive hping
  have hrun : (isRunningOp d e).res = true := by
    have := isRunningOp_res_of_status d e _ (by rw [hs])
    simpa using this
  have hstart := startOp_already d e hrun
  refine ⟨by rw [hstart], ?_⟩
  rw [hstart]
  intro ev hev
  simp only at hev
  rw [(isRunningOp_env_tr d e).2] at hev
  exact (statusOp_calls d e ev hev).1

theorem C4_witness :
    (startOp defaultDM envW).res = .error .alreadyRunning ∧
    ∀ ev ∈ (startOp defaultDM envW).tr, ev.isSpawn = false :=
  C4_no_duplicate_spawn defaultDM envW cfgW (by decide) (by decide) rfl

/-- C5: `Stop` maps a missing record to `ErrDaemonNotRunning`; a record
whose process is dead is deleted with `ErrDaemonNotRunning` returned; and
after a successful `Stop` a second `Stop` returns `ErrDaemonNotRunning`. -/
theorem C5_stop_idempotent (d : DM) (e : Env) :
    (FileConfigStore.load e.fs = .error .notFound →
      (stopOp d e).res = .error .notRunning) ∧
    (∀ c, FileConfigStore.load e.fs = .ok c → e.alive c.pid = false →
      (stopOp d e).res = .error .notRunning ∧
      FileConfigStore.load (stopOp d e).env.fs = .error .notFound) ∧
    ((stopOp d e).res = .ok () →
      (stopOp d (stopOp d e).env).res = .error .notRunning) := by
  refine ⟨?_, ?_, ?_⟩
  · intro h
    rw [stopOp_notFound d e h]
  · intro c hload ha
    rw [stopOp_dead d e c hload ha]
    exact ⟨rfl, load_delete e.fs⟩
  · intro hok
    rcases hl : FileConfigStore.load e.fs with err | c
    · cases err
      · rw [stopOp_notFound d e hl] at hok
        simp at hok
      · rw [stopOp_decodeErr d e hl] at hok
        simp at hok
    · rcases ha : e.alive c.pid
      · rw [stopOp_dead d e c hl ha] at hok
        simp at hok
      · rcases hk : e.killOk c.pid
        · rw [stopOp_killFail d e c hl ha hk] at hok
          simp at hok
        · rw [stopOp_killOk d e c hl ha hk]
          show (stopOp d { killEffect c.pid e with
            fs := FileConfigStore.delete (killEffect c.pid e).fs }).res = .error .notRunning
          rw [stopOp_notFound d { killEffect c.pid e with
            fs := FileConfigStore.delete (killEffect c.pid e).fs } rfl]

theorem C5_witness :
    (stopOp defaultDM (stopOp defaultDM envW).env).res = .error .notRunning :=
  (C5_stop_idempotent defaultDM envW).2.2 (by decide)

/-- C6: when the recorded process is alive but the kill fails, `Stop`
surfaces the kill error, leaves the persisted record untouched and never
invokes `Delete`. -/
theorem C6_kill_failure_frame (d : DM) (e : Env) (c : DaemonConfig)
    (hload : FileConfigStore.load e.fs = .ok c)
    (halive : e.alive c.pid = true)
    (hkill : e.killOk c.pid = false) :
    (stopOp d e).res = .error .killFailed ∧
    (stopOp d e).env.fs = e.fs ∧
    Ev.deleteC ∉ (stopOp d e).tr := by
  rw [stopOp_killFail d e c hload halive hkill]
  exact ⟨rfl, rfl, by simp⟩

theorem C6_witness :
    (stopOp defaultDM envWkillFail).res = .error .killFailed ∧
    (stopOp defaultDM envWkillFail).env.fs = envWkillFail.fs ∧
    Ev.deleteC ∉ (stopOp defaultDM envWkillFail).tr :=
  C6_kill_failure_frame defaultDM envWkillFail cfgW (by decide) (by decide) rfl

/-- C7: `Save` creates the config directory, overwrites the file with the
encoding of the new record (never appends), and `Load` after one or two
`Save`s returns exactly the last record saved. -/
theorem C7_save_load_roundtrip (r r' : DaemonConfig) (fs : FS) :
    (FileConfigStore.save r fs).dirExists = true ∧
    (FileConfigStore.save r fs).file = some (marshal r) ∧
    FileConfigStore.load (FileConfigStore.save r fs) = .ok r ∧
    FileConfigStore.load (FileConfigStore.save r' (FileConfigStore.save r fs)) = .ok r' := by
  refine ⟨rfl, rfl, ?_, ?_⟩
  · simp [FileConfigStore.load, FileConfigStore.save, unmarshal_marshal r]
  · simp [FileConfigStore.load, FileConfigStore.save, unmarshal_marshal r']

/-- C9: a config file with undecodable content makes `IsRunning` return
`false` while `Status` and `GetPort` surface the decode error itself (not
`ErrDaemonNotRunning`), and none of the three deletes the file. -/
theorem C9_malformed_config (d : DM) (e : Env) (s : List Char)
    (hfile : e.fs.file = some s) (hbad : unmarshal s = none) :
    (isRunningOp d e).res = false ∧
    (statusOp d e).res = .error (.loadFailed .decodeErr) ∧
    (getPortOp d e).res = .error (.loadFailed .decodeErr) ∧
    DMErr.loadFailed .decodeErr ≠ DMErr.notRunning ∧
    (statusOp d e).env.fs = e.fs ∧
    (isRunningOp d e).env.fs = e.fs ∧
    (getPortOp d e).env.fs = e.fs := by
  have hload : FileConfigStore.load e.fs = .error .decodeErr := by
    simp [FileConfigStore.load, hfile, hbad]
  have hs := statusOp_decodeErr d e hload
  have hsres : (statusOp d e).res = .error (.loadFailed .decodeErr) := by rw [hs]
  refine ⟨isRunningOp_res_of_statusErr d e _ hsres, hsres,
    getPortOp_res_of_statusErr d e _ hsres, by simp, by rw [hs], ?_, ?_⟩
  · rw [(isRunningOp_env_tr d e).1, hs]
  · rw [(getPortOp_env_tr d e).1, hs]

theorem C9_witness :
    (isRunningOp defaultDM envWbadFile).res = false ∧
    (statusOp defaultDM envWbadFile).res = .error (.loadFailed .decodeErr) ∧
    (getPortOp defaultDM envWbadFile).res = .error (.loadFailed .decodeErr) ∧
    DMErr.loadFailed .decodeErr ≠ DMErr.notRunning ∧
    (statusOp defaultDM envWbadFile).env.fs = envWbadFile.fs ∧
    (isRunningOp defaultDM envWbadFile).env.fs = envWbadFile.fs ∧
    (getPortOp defaultDM envWbadFile).env.fs = envWbadFile.fs :=
  C9_malformed_config defaultDM envWbadFile (String.toList "not valid json")
    (by decide) (by decide)

/-- C10: when `Status` finds a record whose process fails the liveness
check it reports not running without any `Ping`; a `Ping` during `Status`
happens only when the liveness check succeeded. -/
theorem C10_ping_only_after_liveness (d : DM) (e : Env) (c : DaemonConfig)
    (hload : FileConfigStore.load e.fs = .ok c) :
    (e.alive c.pid = false →
      (statusOp d e).res = .ok notRunningStatus ∧
      ∀ ev ∈ (statusOp d e).tr, ev.isPing = false) ∧
    ((∃ ev ∈ (statusOp d e).tr, ev.isPing = true) → e.alive c.pid = true) := by
  constructor
  · intro hdead
    rw [statusOp_dead d e c hload hdead]
    refine ⟨rfl, ?_⟩
    intro ev hev
    simp only [List.mem_cons, List.not_mem_nil, or_false] at hev
    rcases hev with rfl | rfl | rfl <;> rfl
  · intro hping
    rcases ha : e.alive c.pid
    · obtain ⟨ev, hev, hp⟩ := hping
      rw [statusOp_dead d e c hload ha] at hev
      simp only [List.mem_cons, List.not_mem_nil, or_false] at hev
      rcases hev with rfl | rfl | rfl <;> cases hp
    · rfl

theorem C10_witness :
    ((envWdead.alive cfgW.pid = false →
      (statusOp defaultDM envWdead).res = .ok notRunningStatus ∧
      ∀ ev ∈ (statusOp defaultDM envWdead).tr, ev.isPing = false) ∧
    ((∃ ev ∈ (statusOp defaultDM envWdead).tr, ev.isPing = true) →
      envWdead.alive cfgW.pid = true)) ∧
    (statusOp defaultDM envWdead).res = .ok notRunningStatus :=
  ⟨C10_ping_only_after_liveness defaultDM envWdead cfgW (by decide),
   ((C10_ping_only_after_liveness defaultDM envWdead cfgW (by decide)).1 rfl).1⟩

/-- A `Start` that returns `ErrDaemonAlreadyRunning` did so because the
pre-check `IsRunning()` reported `true`. -/
theorem startOp_already_iff (d : DM) (e : Env)
    (h : (startOp d e).res = .error .alreadyRunning) :
    (isRunningOp d e).res = true := by
  rcases hrun : (isRunningOp d e).res
  · exfalso
    rcases hcli : (isRunningOp d e).env.cli with _ | path
    · rw [(startOp_noCli d e hrun hcli).1] at h
      simp at h
    · rcases hspawn : (isRunningOp d e).env.spawn with _ | pid
      · rw [(startOp_spawnFail d e path hrun hcli hspawn).1] at h
        simp at h
      · rcases hw4 : (waitForHealthyM d d.startTicks
            (postSpawnEnv (isRunningOp d e).env pid)).res with werr | u
        · have hw2 : (waitForHealthyM d d.startTicks
              (postSpawnEnv (isRunningOp d e).env pid)).res = .error .startTimeoutE := by
            rcases waitForHealthyM_res d d.startTicks
                (postSpawnEnv (isRunningOp d e).env pid) with h1 | h1
            · rw [h1] at hw4
              cases hw4
            · exact h1
          rw [(startOp_spawned_timeout d e path pid hrun hcli hspawn hw2).1] at h
          simp at h
        · cases u
          rcases hsv : (isRunningOp d e).env.saveOk
          · rw [(startOp_spawned_saveFail d e path pid hrun hcli hspawn hw4 hsv).1] at h
            simp at h
          · rw [(startOp_spawned_ok d e path pid hrun hcli hspawn hw4 hsv).1] at h
            simp at h
  · rfl

/-- C1 (amended): the operations that report the worker as running —
`Status`, `IsRunning`, `GetPort`, and `Start`'s pre-check — trust the
persisted record only after the liveness check AND the health probe both
succeed.  `Stop`, by contrast, trusts the record after the liveness check
alone: it kills exactly the recorded process and only when the liveness
check succeeded, but it never consults the health checker.  In no
operation does the record's mere existence count as proof of a running
worker. -/
theorem C1_double_check_invariant (d : DM) (e : Env) :
    (∀ s : DaemonStatus, (statusOp d e).res = .ok s → s.running = true →
      ∃ c, FileConfigStore.load e.fs = .ok c ∧ e.alive c.pid = true ∧
        e.ping e.tick c.port = true) ∧
    ((isRunningOp d e).res = true →
      ∃ c, FileConfigStore.load e.fs = .ok c ∧ e.alive c.pid = true ∧
        e.ping e.tick c.port = true) ∧
    (∀ p : Int, (getPortOp d e).res = .ok p →
      ∃ c, FileConfigStore.load e.fs = .ok c ∧ e.alive c.pid = true ∧
        e.ping e.tick c.port = true) ∧
    ((startOp d e).res = .error .alreadyRunning →
      ∃ c, FileConfigStore.load e.fs = .ok c ∧ e.alive c.pid = true ∧
        e.ping e.tick c.port = true) ∧
    (∀ pid, Ev.killC pid ∈ (stopOp d e).tr →
      ∃ c, FileConfigStore.load e.fs = .ok c ∧ c.pid = pid ∧
        e.alive pid = true) ∧
    (∀ ev ∈ (stopOp d e).tr, ev.isPing = false) := by
  refine ⟨?_, ?_, ?_, ?_, stopOp_kill_cond d e, stopOp_no_ping d e⟩
  · intro s hs hr
    exact statusOp_running_cond d e s hs hr
  · intro h
    obtain ⟨s, hs, hr⟩ := isRunningOp_res_true d e h
    exact statusOp_running_cond d e s hs hr
  · intro p hp
    obtain ⟨s, hs, hr⟩ := getPortOp_ok_cond d e p hp
    exact statusOp_running_cond d e s hs hr
  · intro h
    obtain ⟨s, hs, hr⟩ := isRunningOp_res_true d e (startOp_already_iff d e h)
    exact statusOp_running_cond d e s hs hr

/-- C1 as stated is false for `Stop`: in an environment whose health
probe never succeeds (`ping` constantly false), `Stop` still trusts the
persisted record as evidence of a running worker — it kills the recorded
process and returns success — although no health probe succeeded; indeed
it makes no `Ping` call at all. -/
theorem C1_counterexample :
    (∀ i p, envWunhealthy.ping i p = false) ∧
    (stopOp defaultDM envWunhealthy).res = .ok () ∧
    Ev.killC 7 ∈ (stopOp defaultDM envWunhealthy).tr ∧
    (∀ ev ∈ (stopOp defaultDM envWunhealthy).tr, ev.isPing = false) :=
  ⟨fun _ _ => rfl, by decide, by decide, by decide⟩

theorem C1_witness :
    ∃ c, FileConfigStore.load envW.fs = .ok c ∧ envW.alive c.pid = true ∧
      envW.ping envW.tick c.port = true :=
  (C1_double_check_invariant defaultDM envW).2.1 (by decide)

/-- C3: when `Start` has spawned a worker process and then fails (after a
spawn the only error paths are the health-wait timeout and the
persistence failure), it issues a best-effort kill of the spawned PID
before returning: the kill call is in the trace, and when the kill
succeeds the spawned process is no longer alive on return. -/
theorem C3_spawn_rollback (d : DM) (e : Env) (pid : Int) (err : DMErr)
    (hspawn : e.spawn = some pid)
    (herr : (startOp d e).res = .error err)
    (hspawned : ∃ ev ∈ (startOp d e).tr, ev.isSpawn = true) :
    Ev.killC pid ∈ (startOp d e).tr ∧
    (e.killOk pid = true → (startOp d e).env.alive pid = false) := by
  have hspawn1 : (isRunningOp d e).env.spawn = some pid := by
    rw [(isRunningOp_env_tr d e).1, (statusOp_preserves d e).2.2.1, hspawn]
  have hko : (waitForHealthyM d d.startTicks
      (postSpawnEnv (isRunningOp d e).env pid)).env.killOk = e.killOk := by
    rw [(waitForHealthyM_preserves d d.startTicks _).2.2.2.2.1]
    show (isRunningOp d e).env.killOk = e.killOk
    rw [(isRunningOp_env_tr d e).1, (statusOp_preserves d e).2.2.2.1]
  rcases hrun : (isRunningOp d e).res
  · rcases hcli : (isRunningOp d e).env.cli with _ | path
    · obtain ⟨ev, hev, hsp⟩ := hspawned
      rw [(startOp_noCli d e hrun hcli).2] at hev
      simp only [List.mem_append, List.mem_singleton] at hev
      rcases hev with hev | rfl
      · rw [(isRunningOp_env_tr d e).2] at hev
        rw [(statusOp_calls d e ev hev).1] at hsp
        cases hsp
      · cases hsp
    · rcases hw4 : (waitForHealthyM d d.startTicks
          (postSpawnEnv (isRunningOp d e).env pid)).res with werr | u
      · have hw2 : (waitForHealthyM d d.startTicks
            (postSpawnEnv (isRunningOp d e).env pid)).res = .error .startTimeoutE := by
          rcases waitForHealthyM_res d d.startTicks
              (postSpawnEnv (isRunningOp d e).env pid) with h1 | h1
          · rw [h1] at hw4
            cases hw4
          · exact h1
        obtain ⟨hres, htr, henv⟩ := startOp_spawned_timeout d e path pid hrun hcli hspawn1 hw2
        constructor
        · rw [htr]
          simp
        · intro hk
          rw [henv]
          apply killEffect_alive
          rw [hko]
          exact hk
      · cases u
        rcases hsv : (isRunningOp d e).env.saveOk
        · obtain ⟨hres, hmem, henv⟩ :=
            startOp_spawned_saveFail d e path pid hrun hcli hspawn1 hw4 hsv
          refine ⟨hmem, ?_⟩
          intro hk
          rw [henv]
          apply killEffect_alive
          rw [hko]
          exact hk
        · rw [(startOp_spawned_ok d e path pid hrun hcli hspawn1 hw4 hsv).1] at herr
          cases herr
  · obtain ⟨ev, hev, hsp⟩ := hspawned
    rw [startOp_already d e hrun] at hev
    rw [(isRunningOp_env_tr d e).2] at hev
    rw [(statusOp_calls d e ev hev).1] at hsp
    cases hsp

theorem C3_witness :
    Ev.killC 12345 ∈ (startOp defaultDM envWsaveFail).tr ∧
    (envWsaveFail.killOk 12345 = true →
      (startOp defaultDM envWsaveFail).env.alive 12345 = false) :=
  C3_spawn_rollback defaultDM envWsaveFail 12345 .saveFailed rfl (by decide)
    ⟨Ev.spawnC ("/usr/bin/copilot") (startArgs defaultDM.port), by decide, rfl⟩

/-- C8: the health-wait loop always terminates, returning success or
`ErrStartTimeout`; it succeeds exactly when some poll within the deadline
succeeds and stops at the first success; when every poll fails it makes
exactly `fuel` polls and times out; every poll is a `Ping` of `localhost`
on the configured port; the interval is 500 ms, the default deadline
30 s (= 60 polls), configurable via `SetStartTimeout`; and a `Start`
whose worker never becomes healthy fails with `ErrStartTimeout` after
killing the spawned process. -/
theorem C8_health_wait (d : DM) (e : Env) (fuel : Nat) :
    ((waitForHealthyM d fuel e).res = .ok () ∨
      (waitForHealthyM d fuel e).res = .error .startTimeoutE) ∧
    ((waitForHealthyM d fuel e).res = .ok () ↔
      ∃ i, i < fuel ∧ e.ping (e.tick + i) d.port = true) ∧
    (∀ k, k < fuel → (∀ i, i < k → e.ping (e.tick + i) d.port = false) →
      e.ping (e.tick + k) d.port = true →
      (waitForHealthyM d fuel e).res = .ok () ∧
      (waitForHealthyM d fuel e).tr.length = k + 1) ∧
    ((∀ i, i < fuel → e.ping (e.tick + i) d.port = false) →
      (waitForHealthyM d fuel e).res = .error .startTimeoutE ∧
      (waitForHealthyM d fuel e).tr.length = fuel) ∧
    (∀ ev ∈ (waitForHealthyM d fuel e).tr, ev = Ev.pingC localhostS d.port) ∧
    tickIntervalMs = 500 ∧ startTimeoutMs = 30000 ∧ defaultDM.startTicks = 60 ∧
    (∀ ms, (d.setStartTimeout ms).startTicks = ms / 500) ∧
    (∀ pid path, e.fs.file = none → e.cli = some path → e.spawn = some pid →
      (∀ i p, e.ping i p = false) →
      (startOp d e).res = .error .startTimeoutE ∧
      Ev.killC pid ∈ (startOp d e).tr) := by
  refine ⟨waitForHealthyM_res d fuel e, waitForHealthyM_ok_iff d fuel e,
    fun k hk hb hh => waitForHealthyM_firstHit d fuel e k hk hb hh,
    fun h => waitForHealthyM_timeout d fuel e h,
    waitForHealthyM_tr d fuel e, rfl, rfl, by decide, fun ms => rfl, ?_⟩
  intro pid path hfile hcli0 hspawn0 hping
  have hl : FileConfigStore.load e.fs = .error .notFound := by
    simp [FileConfigStore.load, hfile]
  have hss := statusOp_notFound d e hl
  have hrun : (isRunningOp d e).res = false := by
    have := isRunningOp_res_of_status d e notRunningStatus (by rw [hss])
    simpa [notRunningStatus] using this
  have he1 : (isRunningOp d e).env = e := by
    rw [(isRunningOp_env_tr d e).1, hss]
  have hcli1 : (isRunningOp d e).env.cli = some path := by
    rw [he1]
    exact hcli0
  have hspawn1 : (isRunningOp d e).env.spawn = some pid := by
    rw [he1]
    exact hspawn0
  have htime : (waitForHealthyM d d.startTicks
      (postSpawnEnv (isRunningOp d e).env pid)).res = .error .startTimeoutE := by
    rw [he1]
    exact (waitForHealthyM_timeout d d.startTicks (postSpawnEnv e pid)
      (fun i _ => hping _ _)).1
  obtain ⟨hres, htr, -⟩ := startOp_spawned_timeout d e path pid hrun hcli1 hspawn1 htime
  refine ⟨hres, ?_⟩
  rw [htr]
  simp

theorem C8_witness :
    (startOp defaultDM envWtimeout).res = .error .startTimeoutE ∧
    Ev.killC 12345 ∈ (startOp defaultDM envWtimeout).tr :=
  (C8_health_wait defaultDM envWtimeout defaultDM.startTicks).2.2.2.2.2.2.2.2.2 12345
    ("/usr/bin/copilot") rfl rfl rfl (fun _ _ => rfl)
